import Mathlib

/-!
Verification of the SysEx preset-transfer and sequence codec of the
mcp-patchwork repository.

Byte arrays are modelled as `List Nat` (JavaScript `number[]` holding
byte values).  Each definition below is a direct shallow embedding of the
correspondingly named TypeScript function:

* `calculateRolandChecksum`, `verifyRolandChecksum`, `buildSE02Request`,
  `parseSE02Response`, `encodePresetName` from the Roland SysEx utilities
  (src/drivers/microfreak/index.ts);
* `buildSysExMessage`, `parseSysExMessage`, `parseArturiaSysEx`,
  `buildArturiaSysEx`, the request builders and `parsePresetDataResponse`
  from src/midi/sysex.ts;
* `decodeStep` / `encodeStep` are the per-step loop bodies of
  `decodeSequence` / `encodeSequence` (src/drivers/microfreak/preset.ts).

JavaScript `slice(a, b)` is `(List.take b) ∘ (List.drop a)` composed
appropriately, `slice(a, -1)` is `List.dropLast ∘ List.drop a`, indexing
`m[i]` inside a length-guarded region is `List.getD i 0`, and a strict
`===` comparison against a possibly out-of-range index is `List.get? i`.
-/

/-- Roland checksum: `128 - ((sum of data bytes) % 128)`, masked to 7 bits,
embedding `calculateRolandChecksum` (the JS `reduce` is a left fold). -/
def calculateRolandChecksum (data : List Nat) : Nat :=
  (128 - (data.foldl (fun acc byte => acc + byte) 0) % 128) &&& 0x7F

/-- Embedding of `verifyRolandChecksum(message, checksumIndex)`: the checked
data span is `message.slice(7, checksumIndex)`; the claimed byte is read with
a strict comparison that fails when the index is out of range. -/
def verifyRolandChecksum (message : List Nat) (checksumIndex : Nat) : Bool :=
  let data := (message.take checksumIndex).drop 7
  message.get? checksumIndex == some (calculateRolandChecksum data)

/-- Mask by 127 agrees with mod 128 on the range the checksum produces. -/
theorem and127_eq_mod (v : Nat) (h : v ≤ 128) : v &&& 127 = v % 128 := by
  have : ∀ w < 129, w &&& 127 = w % 128 := by decide
  exact this v (by omega)

/-- A JS `reduce` with `+` and seed 0 is the list sum. -/
theorem foldl_add_eq_sum (l : List Nat) :
    l.foldl (fun acc byte => acc + byte) 0 = l.sum := by
  rw [List.sum_eq_foldl]

/-- The checksum computed by the code, rewritten to the reference formula. -/
theorem calculateRolandChecksum_eq_ref (data : List Nat) :
    calculateRolandChecksum data = (128 - data.sum % 128) % 128 := by
  unfold calculateRolandChecksum
  rw [foldl_add_eq_sum]
  exact and127_eq_mod _ (by omega)

/-- C4: `calculateRolandChecksum` equals the reference formula
`(128 - (sum(data) mod 128)) mod 128` on every byte array; the empty array
computes to 0, and the known vector `[05 00 00 00 40]` computes to 0x3B. -/
theorem checksum_matches_reference :
    (∀ data : List Nat,
      calculateRolandChecksum data = (128 - data.sum % 128) % 128)
    ∧ calculateRolandChecksum [] = 0
    ∧ calculateRolandChecksum [0x05, 0x00, 0x00, 0x00, 0x40] = 0x3B :=
  ⟨calculateRolandChecksum_eq_ref, by decide, by decide⟩

/-- C5: the computed checksum always verifies: prefixing the 7 header bytes
the verifier skips and appending the computed checksum makes
`verifyRolandChecksum` accept at the checksum's index, and equivalently
`(sum(data) + calculateRolandChecksum(data)) mod 128 = 0`. -/
theorem verify_of_compute (hdr data : List Nat) (h7 : hdr.length = 7) :
    verifyRolandChecksum
        (hdr ++ data ++ [calculateRolandChecksum data, 0xF7])
        (7 + data.length) = true
    ∧ (data.sum + calculateRolandChecksum data) % 128 = 0 := by
  constructor
  · unfold verifyRolandChecksum
    rw [List.append_assoc]
    rw [List.get?_append_right (by omega)]
    rw [List.take_append_eq_append_take, List.drop_append_eq_append_drop]
    have hd : (7 + data.length - hdr.length) = data.length := by omega
    have ht : hdr.take (7 + data.length) = hdr := List.take_of_length_le (by omega)
    have hdrop : hdr.drop 7 = [] := by rw [← h7, List.drop_length]
    rw [hd, ht, h7, hdrop]
    simp only [Nat.add_sub_cancel_left, List.nil_append]
    rw [List.get?_append_right (Nat.le_refl _)]
    simp [List.take_append_eq_append_take, List.take_of_length_le (Nat.le_refl data.length)]
  · rw [calculateRolandChecksum_eq_ref data]
    omega

/-- Witness for C5 at the SE-02 header and the documented test vector. -/
theorem verify_of_compute_witness :
    ([0xF0, 0x41, 0x10, 0x00, 0x00, 0x00, 0x44] : List Nat).length = 7
    ∧ (verifyRolandChecksum
        ([0xF0, 0x41, 0x10, 0x00, 0x00, 0x00, 0x44]
          ++ [0x05, 0x00, 0x00, 0x00, 0x40]
          ++ [calculateRolandChecksum [0x05, 0x00, 0x00, 0x00, 0x40], 0xF7])
        (7 + ([0x05, 0x00, 0x00, 0x00, 0x40] : List Nat).length) = true
      ∧ (([0x05, 0x00, 0x00, 0x00, 0x40] : List Nat).sum
          + calculateRolandChecksum [0x05, 0x00, 0x00, 0x00, 0x40]) % 128 = 0) :=
  ⟨by decide,
   verify_of_compute [0xF0, 0x41, 0x10, 0x00, 0x00, 0x00, 0x44]
     [0x05, 0x00, 0x00, 0x00, 0x40] (by decide)⟩

/-- Embedding of `buildSE02Request(deviceId, address, size)`: the TypeScript
address parameter is a 4-tuple, passed here as four bytes.  The function
concatenates the fixed Roland header, command `0x11`, the address and size,
then appends the checksum over `address ++ [size]` and the end byte. -/
def buildSE02Request (deviceId a0 a1 a2 a3 size : Nat) : List Nat :=
  let message : List Nat :=
    [0xF0, 0x41, deviceId, 0x00, 0x00, 0x00, 0x44, 0x11] ++ [a0, a1, a2, a3] ++ [size]
  let checksumData : List Nat := [a0, a1, a2, a3] ++ [size]
  message ++ [calculateRolandChecksum checksumData, 0xF7]

/-- Record type of a parsed SE-02 DT1 response. -/
structure SE02Response where
  deviceId : Nat
  command : Nat
  address : List Nat
  data : List Nat
  checksum : Nat
  valid : Bool
deriving DecidableEq, Repr

/-- Embedding of `parseSE02Response(message)`: header, device-ID range and
model-ID validation, then extraction of address, data and checksum, with the
checksum reported as a `valid` flag rather than a rejection. -/
def parseSE02Response (message : List Nat) : Option SE02Response :=
  if message.length < 12 then none
  else if message.getD 0 0 ≠ 0xF0 then none
  else if message.getD 1 0 ≠ 0x41 then none
  else if message.getD 2 0 < 0x10 ∨ 0x1F < message.getD 2 0 then none
  else if ¬ (message.getD 3 0 = 0x00 ∧ message.getD 4 0 = 0x00
             ∧ message.getD 5 0 = 0x00 ∧ message.getD 6 0 = 0x44) then none
  else if message.getD (message.length - 1) 0 ≠ 0xF7 then none
  else
    let deviceId := message.getD 2 0
    let command := message.getD 7 0
    let address := (message.take 12).drop 8
    let checksumIndex := message.length - 2
    let checksum := message.getD checksumIndex 0
    let data := (message.take checksumIndex).drop 12
    let valid := checksum == calculateRolandChecksum (address ++ data)
    some ⟨deviceId, command, address, data, checksum, valid⟩

/-- C6: `buildSE02Request` emits exactly the Roland-style wire form
`F0 41 <deviceId> 00 00 00 44 11 <address[4]> <size> <checksum> F7`, with the
trailing checksum computed over `address ++ [size]`. -/
theorem buildSE02Request_wire_form (deviceId a0 a1 a2 a3 size : Nat) :
    buildSE02Request deviceId a0 a1 a2 a3 size
      = [0xF0, 0x41, deviceId, 0x00, 0x00, 0x00, 0x44, 0x11,
         a0, a1, a2, a3, size,
         calculateRolandChecksum ([a0, a1, a2, a3] ++ [size]), 0xF7] := by
  rfl

/-- C9: any message whose byte at index 2 lies outside 0x10..0x1F is rejected
by `parseSE02Response`, regardless of the remaining bytes: the parser silently
restricts device IDs to that range. -/
theorem parseSE02Response_deviceId_range (message : List Nat)
    (h : message.getD 2 0 < 0x10 ∨ 0x1F < message.getD 2 0) :
    parseSE02Response message = none := by
  unfold parseSE02Response
  split_ifs with h1 h2 h3 <;> rfl

/-- Witness for C9: a message that is well-formed in every respect — header,
model ID, terminator, and a correct checksum over address ++ data — except
that its device-ID byte is 0x05, is rejected. -/
theorem parseSE02Response_deviceId_range_witness :
    (([0xF0, 0x41, 0x05, 0x00, 0x00, 0x00, 0x44, 0x12,
       0x05, 0x00, 0x00, 0x00, 0x42, 0x34, 0xF7] : List Nat).getD 2 0 < 0x10
      ∨ 0x1F < ([0xF0, 0x41, 0x05, 0x00, 0x00, 0x00, 0x44, 0x12,
       0x05, 0x00, 0x00, 0x00, 0x42, 0x34, 0xF7] : List Nat).getD 2 0)
    ∧ parseSE02Response
        [0xF0, 0x41, 0x05, 0x00, 0x00, 0x00, 0x44, 0x12,
         0x05, 0x00, 0x00, 0x00, 0x42, 0x34, 0xF7] = none :=
  ⟨by decide,
   parseSE02Response_deviceId_range
     [0xF0, 0x41, 0x05, 0x00, 0x00, 0x00, 0x44, 0x12,
      0x05, 0x00, 0x00, 0x00, 0x42, 0x34, 0xF7] (by decide)⟩

/-- Embedding of `buildSysExMessage(manufacturerId, data)`. -/
def buildSysExMessage (manufacturerId data : List Nat) : List Nat :=
  0xF0 :: (manufacturerId ++ data) ++ [0xF7]

/-- Embedding of `parseSysExMessage(message)`: envelope validation, then the
manufacturer ID (3 bytes when extended, i.e. when byte 1 is 0x00, else 1 byte)
and the payload between the ID and the end byte. -/
def parseSysExMessage (message : List Nat) : Option (List Nat × List Nat) :=
  if message.length < 4 then none
  else if message.getD 0 0 ≠ 0xF0 then none
  else if message.getD (message.length - 1) 0 ≠ 0xF7 then none
  else
    let isExtended := message.getD 1 0 = 0x00
    let manufacturerIdLength := if isExtended then 3 else 1
    let manufacturerId := (message.take (1 + manufacturerIdLength)).drop 1
    let data := (message.drop (1 + manufacturerIdLength)).dropLast
    some (manufacturerId, data)

/-- Arturia extended manufacturer ID `00 20 6B`. -/
def ARTURIA_MANUFACTURER_ID : List Nat := [0x00, 0x20, 0x6B]

/-- MicroFreak device ID. -/
def MICROFREAK_DEVICE_ID : Nat := 0x07

/-- Embedding of `buildArturiaSysEx(data)`. -/
def buildArturiaSysEx (data : List Nat) : List Nat :=
  buildSysExMessage ARTURIA_MANUFACTURER_ID (MICROFREAK_DEVICE_ID :: data)

/-- Embedding of `parseArturiaSysEx(message)`: validates a 3-byte Arturia
manufacturer ID and the MicroFreak device byte, returning the payload after
the device byte. -/
def parseArturiaSysEx (message : List Nat) : Option (List Nat) :=
  match parseSysExMessage message with
  | none => none
  | some (manufacturerId, data) =>
    if manufacturerId.length ≠ 3 then none
    else if manufacturerId.getD 0 0 ≠ 0x00 then none
    else if manufacturerId.getD 1 0 ≠ 0x20 then none
    else if manufacturerId.getD 2 0 ≠ 0x6B then none
    else if data.length < 1 then none
    else if data.getD 0 0 ≠ 0x07 then none
    else some (data.drop 1)

/-- Embedding of `buildPresetNameRequest(bank, preset, sequence)`; the
sequence argument defaults to 0x00 in TypeScript and is explicit here. -/
def buildPresetNameRequest (bank preset seqNum : Nat) : List Nat :=
  buildArturiaSysEx [0x01, seqNum, 0x01, 0x19, bank, preset, 0x00]

/-- Embedding of `buildPresetDumpRequest(bank, preset)`. -/
def buildPresetDumpRequest (bank preset : Nat) : List Nat :=
  buildArturiaSysEx [0x01, 0x01, 0x01, 0x19, bank, preset, 0x01]

/-- Embedding of `buildPresetDataRequest(chunkNumber)`. -/
def buildPresetDataRequest (chunkNumber : Nat) : List Nat :=
  buildArturiaSysEx [0x01, chunkNumber, 0x01, 0x18, 0x00]

/-- Embedding of `parsePresetDataResponse(message)`: after Arturia envelope
parsing, checks the discriminator byte at payload offset 7 is 0x16 or 0x17,
checks `data.length + 5 = 42`, and returns the payload from offset 8 on. -/
def parsePresetDataResponse (message : List Nat) : Option (List Nat) :=
  match parseArturiaSysEx message with
  | none => none
  | some data =>
    if data.length < 8 then none
    else
      let responseType := data.getD 7 0
      if responseType ≠ 0x16 ∧ responseType ≠ 0x17 then none
      else if data.length + 5 ≠ 42 then none
      else some (data.drop 8)

/-- The head of a nonempty list is its entry at index 0. -/
theorem head?_eq_getD (m : List Nat) (h : m ≠ []) :
    m.head? = some (m.getD 0 0) := by
  cases m with
  | nil => exact absurd rfl h
  | cons a t => rfl

/-- The last element of a nonempty list is its entry at index `length - 1`. -/
theorem getLast?_eq_getD (m : List Nat) (h : m ≠ []) :
    m.getLast? = some (m.getD (m.length - 1) 0) := by
  induction m with
  | nil => exact absurd rfl h
  | cons a t ih =>
    cases t with
    | nil => rfl
    | cons b u =>
      rw [List.getLast?_cons_cons, ih (by simp)]
      rfl

/-- C8: both envelope parsers reject (return `none`, and being total Lean
functions they never throw) every byte array that fails an envelope check:
last byte not 0xF7, or first byte not 0xF0, or length below the respective
minimum envelope size (4 for `parseSysExMessage`, 12 for
`parseSE02Response`). -/
theorem envelope_parsers_reject (m : List Nat) :
    ((m.getLast? ≠ some 0xF7 ∨ m.head? ≠ some 0xF0 ∨ m.length < 4) →
      parseSysExMessage m = none)
    ∧ ((m.getLast? ≠ some 0xF7 ∨ m.head? ≠ some 0xF0 ∨ m.length < 12) →
      parseSE02Response m = none) := by
  constructor
  · intro h
    unfold parseSysExMessage
    split_ifs with h1 h2 h3 <;> try rfl
    exfalso
    have hne : m ≠ [] := fun he => h1 (by simp [he])
    rcases h with hL | hH | hlen
    · exact hL (by rw [getLast?_eq_getD m hne, not_not.mp h3])
    · exact hH (by rw [head?_eq_getD m hne, not_not.mp h2])
    · exact h1 hlen
  · intro h
    unfold parseSE02Response
    split_ifs with h1 h2 h3 h4 h5 h6 <;> try rfl
    exfalso
    have hne : m ≠ [] := fun he => h1 (by simp [he])
    rcases h with hL | hH | hlen
    · exact hL (by rw [getLast?_eq_getD m hne, not_not.mp h6])
    · exact hH (by rw [head?_eq_getD m hne, not_not.mp h2])
    · exact h1 hlen

/-- Witness for C8: a lone 0xF0 byte (wrong length, no terminator) is
rejected by both parsers. -/
theorem envelope_parsers_reject_witness :
    parseSysExMessage [0xF0] = none ∧ parseSE02Response [0xF0] = none :=
  ⟨(envelope_parsers_reject [0xF0]).1 (by decide),
   (envelope_parsers_reject [0xF0]).2 (by decide)⟩

/-- Counterexample to C3: the chunk-query builder accepts the out-of-range
chunk index 200 (valid range 0..145) and emits a full SysEx byte sequence
embedding the raw value — no typed error is returned; likewise the name-query
builder with bank 5 and preset 200 and the device-info builder with a
device ID and size far beyond a byte. -/
theorem builders_no_validation_counterexample :
    buildPresetDataRequest 200
      = [0xF0, 0x00, 0x20, 0x6B, 0x07, 0x01, 200, 0x01, 0x18, 0x00, 0xF7]
    ∧ buildPresetNameRequest 5 200 0
      = [0xF0, 0x00, 0x20, 0x6B, 0x07, 0x01, 0x00, 0x01, 0x19, 5, 200, 0x00, 0xF7]
    ∧ buildPresetDumpRequest 5 200
      = [0xF0, 0x00, 0x20, 0x6B, 0x07, 0x01, 0x01, 0x01, 0x19, 5, 200, 0x01, 0xF7]
    ∧ buildSE02Request 0x99 0x80 0x00 0x00 0x00 0x300
      = [0xF0, 0x41, 0x99, 0x00, 0x00, 0x00, 0x44, 0x11,
         0x80, 0x00, 0x00, 0x00, 0x300, 0x00, 0xF7] := by
  refine ⟨rfl, rfl, rfl, ?_⟩
  decide

/-- C3 amended: no request builder validates its arguments; for every
argument tuple, in range or not, each builder totally returns the wire byte
sequence with the raw argument values embedded verbatim. -/
theorem builders_emit_raw_arguments (bank preset seqNum chunkNumber
    deviceId a0 a1 a2 a3 size : Nat) :
    buildPresetNameRequest bank preset seqNum
      = [0xF0, 0x00, 0x20, 0x6B, 0x07, 0x01, seqNum, 0x01, 0x19, bank, preset, 0x00, 0xF7]
    ∧ buildPresetDumpRequest bank preset
      = [0xF0, 0x00, 0x20, 0x6B, 0x07, 0x01, 0x01, 0x01, 0x19, bank, preset, 0x01, 0xF7]
    ∧ buildPresetDataRequest chunkNumber
      = [0xF0, 0x00, 0x20, 0x6B, 0x07, 0x01, chunkNumber, 0x01, 0x18, 0x00, 0xF7]
    ∧ buildSE02Request deviceId a0 a1 a2 a3 size
      = [0xF0, 0x41, deviceId, 0x00, 0x00, 0x00, 0x44, 0x11, a0, a1, a2, a3, size,
         calculateRolandChecksum [a0, a1, a2, a3, size], 0xF7] :=
  ⟨rfl, rfl, rfl, rfl⟩

/-- C1 (divergence of the code from its own documentation): a well-formed
chunk-response frame of total wire length 43 is accepted by
`parsePresetDataResponse` and yields a 29-byte payload, while a frame of the
documented total length 42 — and the 46-byte frame a 32-byte payload would
require — are both rejected.  The function's own comments promise a 42-byte
total and a 32-byte payload, and its caller in preset.ts discards every
result whose length is not 32. -/
theorem parsePresetDataResponse_length_bug :
    parsePresetDataResponse
        ([0xF0, 0x00, 0x20, 0x6B, 0x07, 0x01, 0x00, 0x01, 0x00, 0x00, 0x00, 0x00, 0x16]
          ++ List.replicate 29 0x11 ++ [0xF7])
      = some (List.replicate 29 0x11)
    ∧ ([0xF0, 0x00, 0x20, 0x6B, 0x07, 0x01, 0x00, 0x01, 0x00, 0x00, 0x00, 0x00, 0x16]
        ++ List.replicate 29 0x11 ++ [0xF7] : List Nat).length = 43
    ∧ parsePresetDataResponse
        ([0xF0, 0x00, 0x20, 0x6B, 0x07, 0x01, 0x00, 0x01, 0x00, 0x00, 0x00, 0x00, 0x16]
          ++ List.replicate 28 0x11 ++ [0xF7])
      = none
    ∧ ([0xF0, 0x00, 0x20, 0x6B, 0x07, 0x01, 0x00, 0x01, 0x00, 0x00, 0x00, 0x00, 0x16]
        ++ List.replicate 28 0x11 ++ [0xF7] : List Nat).length = 42
    ∧ parsePresetDataResponse
        ([0xF0, 0x00, 0x20, 0x6B, 0x07, 0x01, 0x00, 0x01, 0x00, 0x00, 0x00, 0x00, 0x16]
          ++ List.replicate 32 0x11 ++ [0xF7])
      = none
    ∧ ([0xF0, 0x00, 0x20, 0x6B, 0x07, 0x01, 0x00, 0x01, 0x00, 0x00, 0x00, 0x00, 0x16]
        ++ List.replicate 32 0x11 ++ [0xF7] : List Nat).length = 46 := by
  refine ⟨by decide, by decide, by decide, by decide, by decide, by decide⟩

/-- Embedding of `encodePresetName(name)`: the name is taken as its sequence
of character codes; a 16-entry zero array is overwritten with the first 16
codes masked to 7 bits, leaving trailing zero padding. -/
def encodePresetName (name : List Nat) : List Nat :=
  (name.take 16).map (fun c => c &&& 0x7F)
    ++ List.replicate (16 - (name.take 16).length) 0

/-- Masking a character code to 7 bits is reduction mod 128. -/
theorem and127_eq_mod_all (c : Nat) : c &&& 127 = c % 128 := by
  have := Nat.and_pow_two_sub_one_eq_mod c 7
  norm_num at this
  omega

/-- C10: `encodePresetName` always returns exactly 16 bytes, each below 128
(codes masked to 7 bits), consisting of the first 16 character codes mod 128
followed by zero padding; codes beyond the 16th are silently dropped. -/
theorem encodePresetName_shape (name : List Nat) :
    (encodePresetName name).length = 16
    ∧ (∀ b ∈ encodePresetName name, b < 128)
    ∧ encodePresetName name
        = (name.take 16).map (fun c => c % 128)
          ++ List.replicate (16 - min name.length 16) 0 := by
  have hmap : (name.take 16).map (fun c => c &&& 0x7F)
      = (name.take 16).map (fun c => c % 128) := by
    apply List.map_congr_left
    intro c _
    exact and127_eq_mod_all c
  have hlen : (name.take 16).length = min 16 name.length := List.length_take 16 name
  refine ⟨?_, ?_, ?_⟩
  · unfold encodePresetName
    rw [List.length_append, List.length_map, List.length_replicate, hlen]
    omega
  · intro b hb
    unfold encodePresetName at hb
    rcases List.mem_append.mp hb with hb | hb
    · obtain ⟨c, _, hc⟩ := List.mem_map.mp hb
      rw [← hc, and127_eq_mod_all c]
      exact Nat.mod_lt _ (by norm_num)
    · rw [List.eq_of_mem_replicate hb]
      norm_num
  · unfold encodePresetName
    rw [hmap, hlen, Nat.min_comm]

/-- Decoded view of one 32-byte sequence chunk, mirroring the TypeScript
`SequenceStep` record as populated by the decoder (gate is always assigned;
the four lanes are optional). -/
structure SequenceStep where
  note : Option Nat
  gate : Bool
  modA : Option Nat
  modC : Option Nat
  modD : Option Nat
deriving DecidableEq, Repr

/-- Per-step decode: the loop body of `decodeSequence` for one 32-byte chunk.
Gate is byte 9 compared with 0; lane B (byte 10) becomes the note only inside
36..96; lanes A (byte 1), C (byte 19) and D (byte 28) are kept only when not
equal to the sentinels 127 and 1. -/
def decodeStep (chunk : List Nat) : SequenceStep :=
  let laneA := chunk.getD 1 0
  let laneB := chunk.getD 10 0
  let laneC := chunk.getD 19 0
  let laneD := chunk.getD 28 0
  { gate := chunk.getD 9 0 == 0
    note := if 36 ≤ laneB ∧ laneB ≤ 96 then some laneB else none
    modA := if laneA ≠ 127 ∧ laneA ≠ 1 then some laneA else none
    modC := if laneC ≠ 127 ∧ laneC ≠ 1 then some laneC else none
    modD := if laneD ≠ 127 ∧ laneD ≠ 1 then some laneD else none }

/-- Per-step encode: the loop body of `encodeSequence` for one active step.
Starts from a 32-byte chunk of 127s; writes gate (and the observed companion
flags at bytes 0 and 24 when the gate is on), the note or its sentinel 1 at
byte 10, and each modulation lane or its default.  `Math.round` and the
clamp `max(0, min(127, v))` reduce on naturals to `min v 127`. -/
def encodeStep (step : SequenceStep) : List Nat :=
  let c0 : List Nat := List.replicate 32 127
  let c1 := if step.gate then ((c0.set 9 0).set 0 0).set 24 112 else c0.set 9 127
  let c2 := match step.note with
    | some n => c1.set 10 (min n 127)
    | none => c1.set 10 1
  let c3 := match step.modA with
    | some v => c2.set 1 (min v 127)
    | none => if step.gate then c2.set 1 127 else c2
  let c4 := match step.modC with
    | some v => c3.set 19 (min v 127)
    | none => if step.gate then c3.set 19 127 else c3
  let c5 := match step.modD with
    | some v => c4.set 28 (min v 127)
    | none => if step.gate then c4.set 28 1 else c4
  c5

/-- C7: the per-step decoder reads the gate from byte 9 (0 means on, in
particular 127 means off) and produces a note exactly when byte 10 lies in
36..96; a chunk with byte 9 = 127 and byte 10 = 127 decodes to gate off with
no note. -/
theorem decodeStep_gate_note (chunk : List Nat) :
    ((decodeStep chunk).gate = true ↔ chunk.getD 9 0 = 0)
    ∧ ((decodeStep chunk).note.isSome
        ↔ (36 ≤ chunk.getD 10 0 ∧ chunk.getD 10 0 ≤ 96))
    ∧ (chunk.getD 9 0 = 127 → chunk.getD 10 0 = 127 →
        (decodeStep chunk).gate = false ∧ (decodeStep chunk).note = none) := by
  have hgate : (decodeStep chunk).gate = (chunk.getD 9 0 == 0) := rfl
  have hnote : (decodeStep chunk).note
      = if 36 ≤ chunk.getD 10 0 ∧ chunk.getD 10 0 ≤ 96
        then some (chunk.getD 10 0) else none := rfl
  refine ⟨?_, ?_, fun h9 h10 => ⟨?_, ?_⟩⟩
  · rw [hgate]
    simp
  · rw [hnote]
    split_ifs with h <;> simpa using h
  · rw [hgate, h9]
    rfl
  · rw [hnote, h10]
    norm_num

/-- Witness for C7 at the all-127 chunk. -/
theorem decodeStep_gate_note_witness :
    (List.replicate 32 127 : List Nat).getD 9 0 = 127
    ∧ (List.replicate 32 127 : List Nat).getD 10 0 = 127
    ∧ ((decodeStep (List.replicate 32 127)).gate = false
        ∧ (decodeStep (List.replicate 32 127)).note = none) :=
  ⟨by decide, by decide,
   (decodeStep_gate_note (List.replicate 32 127)).2.2 (by decide) (by decide)⟩

/-- Value a lane holds on the wire after encoding: the clamped stored value,
or the given default when the lane is absent. -/
def laneOut (o : Option Nat) (dflt : Nat) : Nat :=
  match o with
  | some v => min v 127
  | none => dflt

/-- Evaluation of the decode of an encoded step, lane by lane. -/
theorem decode_encode_eval (s : SequenceStep) :
    decodeStep (encodeStep s)
      = { note := if 36 ≤ laneOut s.note 1 ∧ laneOut s.note 1 ≤ 96
                  then some (laneOut s.note 1) else none
          gate := s.gate
          modA := if laneOut s.modA 127 ≠ 127 ∧ laneOut s.modA 127 ≠ 1
                  then some (laneOut s.modA 127) else none
          modC := if laneOut s.modC 127 ≠ 127 ∧ laneOut s.modC 127 ≠ 1
                  then some (laneOut s.modC 127) else none
          modD := if laneOut s.modD (if s.gate then 1 else 127) ≠ 127
                    ∧ laneOut s.modD (if s.gate then 1 else 127) ≠ 1
                  then some (laneOut s.modD (if s.gate then 1 else 127))
                  else none } := by
  obtain ⟨note, gate, modA, modC, modD⟩ := s
  rcases gate <;> rcases note with _ | n <;> rcases modA with _ | a <;>
    rcases modC with _ | c <;> rcases modD with _ | d <;> rfl

/-- Counterexample to C2 as stated: the step holding note 20 — outside the
sentinel set {1, 127} — with gate on and no modulation lanes does not survive
the round trip: the decoder drops any note outside 36..96, so the note comes
back absent. -/
theorem roundtrip_counterexample :
    decodeStep (encodeStep ⟨some 20, true, none, none, none⟩)
      ≠ (⟨some 20, true, none, none, none⟩ : SequenceStep) := by
  decide

/-- C2 amended: `decodeStep (encodeStep s) = s` for every step whose
modulation-lane values are bytes outside the sentinel set {1, 127} and whose
note, when present, lies in the decoder's note range 36..96. -/
theorem decode_encode_roundtrip (s : SequenceStep)
    (hnote : ∀ n, s.note = some n → 36 ≤ n ∧ n ≤ 96)
    (hA : ∀ v, s.modA = some v → v ≤ 127 ∧ v ≠ 127 ∧ v ≠ 1)
    (hC : ∀ v, s.modC = some v → v ≤ 127 ∧ v ≠ 127 ∧ v ≠ 1)
    (hD : ∀ v, s.modD = some v → v ≤ 127 ∧ v ≠ 127 ∧ v ≠ 1) :
    decodeStep (encodeStep s) = s := by
  rw [decode_encode_eval]
  obtain ⟨note, gate, modA, modC, modD⟩ := s
  simp only at hnote hA hC hD
  simp only [SequenceStep.mk.injEq]
  refine ⟨?_, trivial, ?_, ?_, ?_⟩
  · cases note with
    | none => rfl
    | some n =>
      obtain ⟨h1, h2⟩ := hnote n rfl
      have hm : laneOut (some n) 1 = n := by
        simp only [laneOut]
        omega
      rw [hm, if_pos ⟨h1, h2⟩]
  · cases modA with
    | none => rfl
    | some a =>
      obtain ⟨h1, h2, h3⟩ := hA a rfl
      have hm : laneOut (some a) 127 = a := by
        simp only [laneOut]
        omega
      rw [hm, if_pos ⟨h2, h3⟩]
  · cases modC with
    | none => rfl
    | some c =>
      obtain ⟨h1, h2, h3⟩ := hC c rfl
      have hm : laneOut (some c) 127 = c := by
        simp only [laneOut]
        omega
      rw [hm, if_pos ⟨h2, h3⟩]
  · cases modD with
    | none => cases gate <;> rfl
    | some d =>
      obtain ⟨h1, h2, h3⟩ := hD d rfl
      have hm : laneOut (some d) (if gate then 1 else 127) = d := by
        simp only [laneOut]
        omega
      rw [hm, if_pos ⟨h2, h3⟩]

/-- Witness for C2 amended at a concrete step: note 60, lane A 5, lane C
absent, lane D 100, gate on. -/
theorem decode_encode_roundtrip_witness :
    decodeStep (encodeStep ⟨some 60, true, some 5, none, some 100⟩)
      = (⟨some 60, true, some 5, none, some 100⟩ : SequenceStep) :=
  decode_encode_roundtrip ⟨some 60, true, some 5, none, some 100⟩
    (by decide) (by decide) (by decide) (by decide)
